import Mathlib

set_option maxHeartbeats 1000000

namespace AgreeTime

/-- Status of an `Event` (`Event.STATUS_CHOICES` in `schedule/models.py`). -/
inductive EventStatus
  | pending
  | confirmed
  | cancelled
  | deleted
  deriving DecidableEq

/-- Status of an `EventApprover` row (`EventApprover.STATUS_CHOICES` in
`schedule/models.py`). -/
inductive ApproverStatus
  | pending
  | approved
  | rejected
  | expired
  deriving DecidableEq

/-- Type tag of a `Notification` row (`Notification.TYPE_CHOICES` in
`schedule/models.py`). -/
inductive NotificationType
  | eventCreated
  | approvalRequest
  | approvalResult
  | eventCancelled
  deriving DecidableEq

/-- An `Event` row (`schedule/models.py`).  Times are modelled as integer
instants; `creatorId` is nullable (`on_delete=SET_NULL`); `status` defaults to
`PENDING` at the model level. -/
structure Event where
  id : Nat
  familyId : Nat
  creatorId : Option Nat
  title : String
  description : String
  location : String
  start_time : Int
  end_time : Int
  status : EventStatus
  deriving DecidableEq

/-- An `EventParticipant` row (`schedule/models.py`), the (event, user) join
table. -/
structure EventParticipant where
  eventId : Nat
  userId : Nat
  deriving DecidableEq

/-- An `EventApprover` row (`schedule/models.py`): per-approver status,
nullable decision time, and a rejection reason defaulting to the empty
string (`TextField(blank=True)`). -/
structure EventApprover where
  eventId : Nat
  approverId : Nat
  status : ApproverStatus
  decision_time : Option Nat
  rejection_reason : String
  deriving DecidableEq

/-- A `Notification` row (`schedule/models.py`). -/
structure Notification where
  recipientId : Nat
  eventId : Option Nat
  type : NotificationType
  message : String
  is_read : Bool
  deriving DecidableEq

/-- The persistent store: the database tables touched by the claims
(events, participants, approvers, notifications) plus the id sequence for
events.  Rows live in lists in insertion order. -/
structure Store where
  events : List Event
  participants : List EventParticipant
  approvers : List EventApprover
  notifications : List Notification
  nextEventId : Nat
  deriving DecidableEq

/-- Lookup `Event.objects.get(id=...)`: first stored event with the given id. -/
def findEvent (st : Store) (eventId : Nat) : Option Event :=
  st.events.find? (fun e => e.id == eventId)

/-- Predicate matching `EventApprover.objects.get(event_id=..., approver=...)`. -/
def approverMatches (eventId userId : Nat) (a : EventApprover) : Bool :=
  a.eventId == eventId && a.approverId == userId

/-- Lookup `EventApprover.objects.get(event_id=event_id, approver=user)`: the
unique matching row, if any (uniqueness is the `unique_together` constraint). -/
def findApprover (st : Store) (eventId userId : Nat) : Option EventApprover :=
  st.approvers.find? (approverMatches eventId userId)

/-- Write-back `approver.save()`: store the row keyed by (event, approver). -/
def saveApprover (st : Store) (row : EventApprover) : Store :=
  { st with approvers := st.approvers.map (fun a =>
      if approverMatches row.eventId row.approverId a then row else a) }

/-- Query `event.approvers.values_list("status", flat=True)`: the statuses of
all approver rows of the event. -/
def approverStatuses (st : Store) (eventId : Nat) : List ApproverStatus :=
  (st.approvers.filter (fun a => a.eventId == eventId)).map (fun a => a.status)

/-- Write `event.status = s; event.save(update_fields=["status"])`. -/
def setEventStatus (st : Store) (eventId : Nat) (s : EventStatus) : Store :=
  { st with events := st.events.map (fun e =>
      if e.id == eventId then { e with status := s } else e) }

/-- The mutation of the caller's approver row in `ApproveEventView.post`
(views.py lines 83-88): stamp `decision_time`; `decision == "approve"` turns
the row APPROVED, anything else turns it REJECTED and stores the reason. -/
def decideRow (a : EventApprover) (decision : Option String) (reason : String)
    (now : Nat) : EventApprover :=
  if decision == some "approve" then
    { a with decision_time := some now, status := ApproverStatus.approved }
  else
    { a with decision_time := some now, status := ApproverStatus.rejected,
             rejection_reason := reason }

/-- The overall-approval recomputation in `ApproveEventView.post` (views.py
lines 90-98): if all approver rows are APPROVED the event becomes CONFIRMED,
else if any is REJECTED it becomes CANCELLED, else it is left untouched. -/
def recomputeEvent (st : Store) (eventId : Nat) : Store :=
  if (approverStatuses st eventId).all (fun s => s == ApproverStatus.approved) then
    setEventStatus st eventId EventStatus.confirmed
  else if (approverStatuses st eventId).any (fun s => s == ApproverStatus.rejected) then
    setEventStatus st eventId EventStatus.cancelled
  else st

/-- Outcome of `ApproveEventView.post`: 403 "Not an approver for this event.",
400 "Already responded.", or 200 carrying the approver row's new status. -/
inductive DecideResult
  | notAnApprover
  | alreadyResponded
  | ok (s : ApproverStatus)
  deriving DecidableEq

/-- Endpoint `ApproveEventView.post` (views.py lines 73-99).  Inputs `decision`
and `reasonIn`
model `request.data.get("decision")` and `request.data.get("reason", "")`:
`none` is a missing field, and a missing reason defaults to `""`. -/
def approveEventPost (st : Store) (event_id userId : Nat)
    (decision reasonIn : Option String) (now : Nat) : DecideResult × Store :=
  match findApprover st event_id userId with
  | none => (DecideResult.notAnApprover, st)
  | some approver =>
    if approver.status ≠ ApproverStatus.pending then
      (DecideResult.alreadyResponded, st)
    else
      (DecideResult.ok (decideRow approver decision (reasonIn.getD "") now).status,
       recomputeEvent
         (saveApprover st (decideRow approver decision (reasonIn.getD "") now))
         event_id)

/-- The event row built by `Event.objects.create(creator=user, **validated_data)`
in `EventSerializer.create` (serializers.py line 82).  `status` is a writable
serializer field; when the request omits it the model default PENDING applies
(`statusIn = none`). -/
structure EventInput where
  familyId : Nat
  title : String
  description : String
  location : String
  start_time : Int
  end_time : Int
  statusIn : Option EventStatus
  deriving DecidableEq

def newEventOf (st : Store) (userId : Nat) (inp : EventInput) : Event :=
  { id := st.nextEventId
    familyId := inp.familyId
    creatorId := some userId
    title := inp.title
    description := inp.description
    location := inp.location
    start_time := inp.start_time
    end_time := inp.end_time
    status := inp.statusIn.getD EventStatus.pending }

/-- serializers.py lines 84-85: the creator's id is appended to
`participant_ids` when absent. -/
def withCreator (userId : Nat) (participant_ids : List Nat) : List Nat :=
  if participant_ids.contains userId then participant_ids
  else participant_ids ++ [userId]

/-- The only failure of `EventSerializer.create`:
`serializers.ValidationError` (serializers.py line 92). -/
inductive CreateError
  | validationError (msg : String)
  deriving DecidableEq

/-- Operation `EventSerializer.create` (serializers.py lines 76-95), writes in source
order: the Event row is created first, then one EventParticipant row per id
(creator included), and only then — when there is more than one participant —
the approver check runs; a raised ValidationError leaves the earlier writes in
place (there is no transactional boundary in the source), which the returned
store reflects. -/
def eventSerializerCreate (st : Store) (userId : Nat) (inp : EventInput)
    (participant_ids : List Nat) (approver_ids : List Nat) :
    Except CreateError Nat × Store :=
  let eventId := st.nextEventId
  let st := { st with
    events := st.events ++ [newEventOf st userId inp]
    nextEventId := st.nextEventId + 1 }
  let pids := withCreator userId participant_ids
  let st := { st with participants :=
    st.participants ++ pids.map (fun uid => { eventId := eventId, userId := uid }) }
  if pids.length > 1 then
    if approver_ids.isEmpty then
      (Except.error (CreateError.validationError
        "At least one approver must be specified."), st)
    else
      let st := { st with approvers :=
        st.approvers ++ approver_ids.map (fun aid =>
          { eventId := eventId, approverId := aid,
            status := ApproverStatus.pending, decision_time := none,
            rejection_reason := "" }) }
      (Except.ok eventId, st)
  else
    (Except.ok eventId, st)

/-- Outcome of `EventDetailView.delete`: 204, or 404 when the event id does
not resolve. -/
inductive DeleteResult
  | noContent
  | notFound
  deriving DecidableEq

/-- Endpoint `EventDetailView.delete` (views.py lines 58-65): a CONFIRMED event is
soft-deleted (status set to CANCELLED, row kept); otherwise
`super().delete` removes the row, and the `on_delete=CASCADE` foreign keys
remove its participant, approver and notification rows. -/
def eventDetailDelete (st : Store) (event_id : Nat) : DeleteResult × Store :=
  match findEvent st event_id with
  | none => (DeleteResult.notFound, st)
  | some event =>
    if event.status = EventStatus.confirmed then
      (DeleteResult.noContent, setEventStatus st event_id EventStatus.cancelled)
    else
      (DeleteResult.noContent,
        { st with
          events := st.events.filter (fun e => !(e.id == event_id))
          participants := st.participants.filter (fun p => !(p.eventId == event_id))
          approvers := st.approvers.filter (fun a => !(a.eventId == event_id))
          notifications := st.notifications.filter
            (fun n => !(n.eventId == some event_id)) })

/-- The `status` write of a PATCH/PUT through `EventDetailView`
(`RetrieveUpdateDestroyAPIView` with `EventSerializer`): `status` is listed in
`EventSerializer.Meta.fields` and is not read-only, so the default
`ModelSerializer.update` sets `instance.status` to the supplied value and
saves. -/
def eventSerializerUpdateStatus (st : Store) (event_id : Nat)
    (newStatus : EventStatus) : Store :=
  setEventStatus st event_id newStatus

/-- The recomputation rule in the spec's own order (§4.2 step 2): any REJECTED
row gives CANCELLED, else all APPROVED gives CONFIRMED, else the status is
unchanged. -/
def specRecompute (rows : List ApproverStatus) (cur : EventStatus) : EventStatus :=
  if rows.any (fun s => s == ApproverStatus.rejected) then EventStatus.cancelled
  else if rows.all (fun s => s == ApproverStatus.approved) then EventStatus.confirmed
  else cur

/-- The `unique_together = ("event", "approver")` constraint on
`EventApprover`. -/
def approversUnique (st : Store) : Prop :=
  ∀ a1 ∈ st.approvers, ∀ a2 ∈ st.approvers,
    a1.eventId = a2.eventId → a1.approverId = a2.approverId → a1 = a2

theorem find?_map_pres {α : Type} (p : α → Bool) (f : α → α)
    (h : ∀ x, p (f x) = p x) (l : List α) :
    (l.map f).find? p = (l.find? p).map f := by
  induction l with
  | nil => rfl
  | cons x xs ih =>
    simp only [List.map_cons, List.find?]
    rw [h x]
    cases hx : p x
    · simpa using ih
    · rfl

theorem find?_filter_not_none {α : Type} (p : α → Bool) (l : List α) :
    (l.filter (fun x => !(p x))).find? p = none := by
  rw [List.find?_eq_none]
  intro x hx
  have hnx := (List.mem_filter.mp hx).2
  simp at hnx
  simp [hnx]

theorem filter_not_filter_nil {α : Type} (p : α → Bool) (l : List α) :
    (l.filter (fun x => !(p x))).filter p = [] := by
  induction l with
  | nil => rfl
  | cons x xs ih =>
    cases hx : p x <;> simp [List.filter_cons, hx, ih]

theorem saveApprover_events (st : Store) (row : EventApprover) :
    (saveApprover st row).events = st.events := rfl

theorem setEventStatus_approvers (st : Store) (i : Nat) (s : EventStatus) :
    (setEventStatus st i s).approvers = st.approvers := rfl

theorem recomputeEvent_approvers (st : Store) (i : Nat) :
    (recomputeEvent st i).approvers = st.approvers := by
  unfold recomputeEvent
  split
  · rfl
  · split <;> rfl

theorem recomputeEvent_notifications (st : Store) (i : Nat) :
    (recomputeEvent st i).notifications = st.notifications := by
  unfold recomputeEvent
  split
  · rfl
  · split <;> rfl

theorem approveEventPost_none_eq (st : Store) (eid uid now : Nat)
    (d rIn : Option String) (hfa : findApprover st eid uid = none) :
    approveEventPost st eid uid d rIn now = (DecideResult.notAnApprover, st) := by
  unfold approveEventPost
  rw [hfa]

theorem approveEventPost_found_eq (st : Store) (eid uid now : Nat)
    (d rIn : Option String) (a : EventApprover)
    (hfa : findApprover st eid uid = some a) :
    approveEventPost st eid uid d rIn now =
      (if a.status ≠ ApproverStatus.pending then
        (DecideResult.alreadyResponded, st)
      else
        (DecideResult.ok (decideRow a d (rIn.getD "") now).status,
         recomputeEvent (saveApprover st (decideRow a d (rIn.getD "") now)) eid)) := by
  unfold approveEventPost
  rw [hfa]

theorem findEvent_congr (st st' : Store) (h : st'.events = st.events) (i : Nat) :
    findEvent st' i = findEvent st i := by
  unfold findEvent
  rw [h]

theorem findApprover_congr (st st' : Store) (h : st'.approvers = st.approvers)
    (i u : Nat) : findApprover st' i u = findApprover st i u := by
  unfold findApprover
  rw [h]

theorem approverStatuses_congr (st st' : Store)
    (h : st'.approvers = st.approvers) (i : Nat) :
    approverStatuses st' i = approverStatuses st i := by
  unfold approverStatuses
  rw [h]

theorem findEvent_setEventStatus (st : Store) (i : Nat) (s : EventStatus)
    (ev : Event) (h : findEvent st i = some ev) :
    findEvent (setEventStatus st i s) i = some { ev with status := s } := by
  have h2 : st.events.find? (fun e => e.id == i) = some ev := h
  have hp : (ev.id == i) = true := by simpa using List.find?_some h2
  have hmap := @find?_map_pres Event (fun e => e.id == i)
    (fun e => if e.id == i then { e with status := s } else e)
    (fun x => by dsimp only
                 by_cases hx : (x.id == i) = true
                 · rw [if_pos hx]
                 · rw [if_neg hx])
    st.events
  unfold findEvent setEventStatus
  dsimp only
  rw [hmap, h2]
  simp [hp]
  intro h3
  exact absurd (by simpa using hp) h3

theorem decideRow_eventId (a : EventApprover) (d : Option String) (r : String)
    (t : Nat) : (decideRow a d r t).eventId = a.eventId := by
  unfold decideRow
  split <;> rfl

theorem decideRow_approverId (a : EventApprover) (d : Option String) (r : String)
    (t : Nat) : (decideRow a d r t).approverId = a.approverId := by
  unfold decideRow
  split <;> rfl

theorem decideRow_status (a : EventApprover) (d : Option String) (r : String)
    (t : Nat) :
    (decideRow a d r t).status =
      (if d == some "approve" then ApproverStatus.approved
       else ApproverStatus.rejected) := by
  unfold decideRow
  split <;> rfl

theorem decideRow_status_ne_pending (a : EventApprover) (d : Option String)
    (r : String) (t : Nat) :
    (decideRow a d r t).status ≠ ApproverStatus.pending := by
  rw [decideRow_status]
  split <;> simp

theorem approverMatches_elim (eid uid : Nat) (a : EventApprover)
    (h : approverMatches eid uid a = true) :
    a.eventId = eid ∧ a.approverId = uid := by
  unfold approverMatches at h
  rw [Bool.and_eq_true] at h
  exact ⟨eq_of_beq h.1, eq_of_beq h.2⟩

theorem approverMatches_self (a : EventApprover) :
    approverMatches a.eventId a.approverId a = true := by
  unfold approverMatches
  simp

theorem status_mem_approverStatuses (st : Store) (i : Nat) (a : EventApprover)
    (ha : a ∈ st.approvers) (he : a.eventId = i) :
    a.status ∈ approverStatuses st i := by
  unfold approverStatuses
  exact List.mem_map_of_mem _ (List.mem_filter.mpr ⟨ha, by rw [he]; simp⟩)

theorem row_mem_saveApprover (st : Store) (row a : EventApprover)
    (ha : a ∈ st.approvers)
    (ht : approverMatches row.eventId row.approverId a = true) :
    row ∈ (saveApprover st row).approvers := by
  unfold saveApprover
  dsimp only
  have hm := List.mem_map_of_mem
    (fun a1 => if approverMatches row.eventId row.approverId a1 then row else a1) ha
  simpa [ht] using hm

theorem mem_saveApprover_of_not_match (st : Store) (row x : EventApprover)
    (hx : x ∈ st.approvers)
    (hnm : approverMatches row.eventId row.approverId x = false) :
    x ∈ (saveApprover st row).approvers := by
  unfold saveApprover
  dsimp only
  have hm := List.mem_map_of_mem
    (fun a1 => if approverMatches row.eventId row.approverId a1 then row else a1) hx
  simpa [hnm] using hm

theorem findApprover_saveApprover_self (st : Store) (eid uid : Nat)
    (a : EventApprover) (hfa : findApprover st eid uid = some a)
    (row : EventApprover) (he : row.eventId = a.eventId)
    (hu : row.approverId = a.approverId) :
    findApprover (saveApprover st row) eid uid = some row := by
  have hpa : approverMatches eid uid a = true := List.find?_some hfa
  obtain ⟨hae, hau⟩ := approverMatches_elim eid uid a hpa
  have hre : row.eventId = eid := he.trans hae
  have hru : row.approverId = uid := hu.trans hau
  have hprow : approverMatches eid uid row = true := by
    unfold approverMatches
    rw [hre, hru]
    simp
  have hmap := @find?_map_pres EventApprover (approverMatches eid uid)
    (fun x => if approverMatches eid uid x then row else x)
    (fun x => by dsimp only
                 by_cases hx : approverMatches eid uid x = true
                 · rw [if_pos hx, hx, hprow]
                 · rw [if_neg hx])
    st.approvers
  have hfa2 : st.approvers.find? (approverMatches eid uid) = some a := hfa
  unfold findApprover saveApprover
  dsimp only
  rw [hre, hru, hmap, hfa2]
  simp [hpa]

theorem all_approved_any_rejected_false (rows : List ApproverStatus)
    (h : rows.all (fun s => s == ApproverStatus.approved) = true) :
    rows.any (fun s => s == ApproverStatus.rejected) = false := by
  rw [List.all_eq_true] at h
  rw [← Bool.not_eq_true, List.any_eq_true]
  rintro ⟨x, hx, hr⟩
  have := h x hx
  rw [eq_of_beq hr] at this
  exact absurd (eq_of_beq this) (by simp)

theorem recompute_order_eq (rows : List ApproverStatus) (cur : EventStatus) :
    (if rows.all (fun s => s == ApproverStatus.approved) then EventStatus.confirmed
     else if rows.any (fun s => s == ApproverStatus.rejected) then
       EventStatus.cancelled
     else cur) = specRecompute rows cur := by
  unfold specRecompute
  by_cases hall : rows.all (fun s => s == ApproverStatus.approved) = true
  · rw [if_pos hall, if_neg (by rw [all_approved_any_rejected_false rows hall]; simp),
        if_pos hall]
  · rw [if_neg hall]
    by_cases hany : rows.any (fun s => s == ApproverStatus.rejected) = true
    · rw [if_pos hany, if_pos hany]
    · rw [if_neg hany, if_neg hany, if_neg hall]

theorem findEvent_recomputeEvent (st : Store) (i : Nat) (ev : Event)
    (h : findEvent st i = some ev) :
    findEvent (recomputeEvent st i) i =
      some { ev with status := specRecompute (approverStatuses st i) ev.status } := by
  unfold recomputeEvent
  by_cases hall :
      (approverStatuses st i).all (fun s => s == ApproverStatus.approved) = true
  · rw [if_pos hall, findEvent_setEventStatus st i _ ev h]
    unfold specRecompute
    rw [if_neg (by rw [all_approved_any_rejected_false _ hall]; simp), if_pos hall]
  · rw [if_neg hall]
    by_cases hany :
        (approverStatuses st i).any (fun s => s == ApproverStatus.rejected) = true
    · rw [if_pos hany, findEvent_setEventStatus st i _ ev h]
      unfold specRecompute
      rw [if_pos hany]
    · rw [if_neg hany, h]
      unfold specRecompute
      rw [if_neg hany, if_neg hall]

theorem approveEventPost_ok (st : Store) (eid uid now : Nat)
    (d rIn : Option String) (s : ApproverStatus) (st' : Store)
    (hok : approveEventPost st eid uid d rIn now = (DecideResult.ok s, st')) :
    ∃ a, findApprover st eid uid = some a ∧ a.status = ApproverStatus.pending ∧
      s = (decideRow a d (rIn.getD "") now).status ∧
      st' = recomputeEvent (saveApprover st (decideRow a d (rIn.getD "") now)) eid := by
  cases hfa : findApprover st eid uid with
  | none =>
    rw [approveEventPost_none_eq st eid uid now d rIn hfa] at hok
    simp at hok
  | some a =>
    rw [approveEventPost_found_eq st eid uid now d rIn a hfa] at hok
    by_cases hp : a.status ≠ ApproverStatus.pending
    · rw [if_pos hp] at hok
      simp at hok
    · rw [if_neg hp] at hok
      simp only [Prod.mk.injEq, DecideResult.ok.injEq] at hok
      exact ⟨a, rfl, not_not.mp hp, hok.1.symm, hok.2.symm⟩

/-- C1: after a valid (successful) decision through `ApproveEventView.post`,
the event's approver-row set is non-empty and its persisted status equals the
spec's recomputation over the post-decision approver statuses: CANCELLED when
any row is REJECTED (absorbing, regardless of other pending or approved rows),
else CONFIRMED when all rows are APPROVED, else unchanged.  The third conjunct
states the order-independent consequence directly: whenever the rows end up
all APPROVED — in particular after the last of the N approvers approves, in
any order — the status is CONFIRMED. -/
theorem C1_decide_recompute (st : Store) (eid uid now : Nat)
    (d rIn : Option String) (s : ApproverStatus) (st' : Store) (ev : Event)
    (hok : approveEventPost st eid uid d rIn now = (DecideResult.ok s, st'))
    (hev : findEvent st eid = some ev) :
    approverStatuses st' eid ≠ [] ∧
    findEvent st' eid =
      some { ev with status := specRecompute (approverStatuses st' eid) ev.status } ∧
    ((approverStatuses st' eid).all (fun x => x == ApproverStatus.approved) = true →
      findEvent st' eid = some { ev with status := EventStatus.confirmed }) := by
  obtain ⟨a, hfa, hp, hs, hst⟩ := approveEventPost_ok st eid uid now d rIn s st' hok
  have hfa2 : st.approvers.find? (approverMatches eid uid) = some a := hfa
  have hpa : approverMatches eid uid a = true := List.find?_some hfa2
  obtain ⟨hae, hau⟩ := approverMatches_elim eid uid a hpa
  have hamem : a ∈ st.approvers := List.mem_of_find?_eq_some hfa2
  have hre : (decideRow a d (rIn.getD "") now).eventId = eid :=
    (decideRow_eventId a d _ now).trans hae
  have hrmem : decideRow a d (rIn.getD "") now ∈
      (saveApprover st (decideRow a d (rIn.getD "") now)).approvers :=
    row_mem_saveApprover st _ a hamem
      (by rw [decideRow_eventId, decideRow_approverId]; exact approverMatches_self a)
  have h1 : findEvent (saveApprover st (decideRow a d (rIn.getD "") now)) eid
      = some ev := by
    rw [findEvent_congr st (saveApprover st (decideRow a d (rIn.getD "") now))
          (saveApprover_events st _) eid]
    exact hev
  have h2 : findEvent st' eid = some { ev with status :=
      (specRecompute
        (approverStatuses (saveApprover st (decideRow a d (rIn.getD "") now)) eid)
        ev.status) } := by
    rw [hst]
    exact findEvent_recomputeEvent _ eid ev h1
  have h3 : approverStatuses st' eid
      = approverStatuses (saveApprover st (decideRow a d (rIn.getD "") now)) eid := by
    rw [hst]
    exact approverStatuses_congr _ _ (recomputeEvent_approvers _ _) eid
  have hne : approverStatuses st' eid ≠ [] := by
    rw [h3]
    exact List.ne_nil_of_mem (status_mem_approverStatuses _ eid _ hrmem hre)
  refine ⟨hne, by rw [h3]; exact h2, ?_⟩
  intro hall
  rw [h3] at hall
  have hspec : specRecompute
      (approverStatuses (saveApprover st (decideRow a d (rIn.getD "") now)) eid)
      ev.status = EventStatus.confirmed := by
    unfold specRecompute
    rw [if_neg (by rw [all_approved_any_rejected_false _ hall]; simp), if_pos hall]
  rw [h2, hspec]

/-- A concrete store for witnesses: event 0 is PENDING, created by user 1,
with users 1 and 2 participating and user 2 its single pending approver. -/
def ev0 : Event :=
  { id := 0, familyId := 0, creatorId := some 1, title := "t", description := "",
    location := "", start_time := 0, end_time := 1,
    status := EventStatus.pending }

def ap0 : EventApprover :=
  { eventId := 0, approverId := 2, status := ApproverStatus.pending,
    decision_time := none, rejection_reason := "" }

def s1 : Store :=
  { events := [ev0], participants := [⟨0, 1⟩, ⟨0, 2⟩], approvers := [ap0],
    notifications := [], nextEventId := 1 }

/-- C1 witness: on the concrete store `s1`, user 2's approval is a successful
decision, and the theorem yields the recomputed status. -/
theorem C1_witness :
    approverStatuses (approveEventPost s1 0 2 (some "approve") none 7).2 0 ≠ [] ∧
    findEvent (approveEventPost s1 0 2 (some "approve") none 7).2 0 =
      some { ev0 with status :=
        (specRecompute
          (approverStatuses (approveEventPost s1 0 2 (some "approve") none 7).2 0)
          ev0.status) } ∧
    ((approverStatuses (approveEventPost s1 0 2 (some "approve") none 7).2 0).all
        (fun x => x == ApproverStatus.approved) = true →
      findEvent (approveEventPost s1 0 2 (some "approve") none 7).2 0 =
        some { ev0 with status := EventStatus.confirmed }) :=
  C1_decide_recompute s1 0 2 7 (some "approve") none ApproverStatus.approved
    (approveEventPost s1 0 2 (some "approve") none 7).2 ev0 (by decide) (by decide)

/-- C4: `ApproveEventView.post` answers NotAnApprover exactly when no approver
row matches (eventId, userId), AlreadyDecided exactly when the matching row is
not PENDING; on either failure the store is unchanged; and after a successful
decision a second call by the same approver answers AlreadyDecided and leaves
the store as it was, so the status is never changed twice. -/
theorem C4_decide_errors (st : Store) (eid uid now : Nat) (d rIn : Option String) :
    ((approveEventPost st eid uid d rIn now).1 = DecideResult.notAnApprover ↔
      findApprover st eid uid = none) ∧
    ((approveEventPost st eid uid d rIn now).1 = DecideResult.alreadyResponded ↔
      ∃ a, findApprover st eid uid = some a ∧ a.status ≠ ApproverStatus.pending) ∧
    (((approveEventPost st eid uid d rIn now).1 = DecideResult.notAnApprover ∨
      (approveEventPost st eid uid d rIn now).1 = DecideResult.alreadyResponded) →
      (approveEventPost st eid uid d rIn now).2 = st) ∧
    (∀ s st', approveEventPost st eid uid d rIn now = (DecideResult.ok s, st') →
      ∀ d2 r2 t2, approveEventPost st' eid uid d2 r2 t2 =
        (DecideResult.alreadyResponded, st')) := by
  cases hfa : findApprover st eid uid with
  | none =>
    rw [approveEventPost_none_eq st eid uid now d rIn hfa]
    refine ⟨by simp, by simp, fun _ => rfl, ?_⟩
    intro s st' habs
    simp at habs
  | some a =>
    rw [approveEventPost_found_eq st eid uid now d rIn a hfa]
    by_cases hp : a.status ≠ ApproverStatus.pending
    · rw [if_pos hp]
      refine ⟨by simp, ?_, fun _ => rfl, ?_⟩
      · simp only [true_iff]
        exact ⟨a, rfl, hp⟩
      · intro s st' habs
        simp at habs
    · rw [if_neg hp]
      have hpen : a.status = ApproverStatus.pending := not_not.mp hp
      refine ⟨by simp, ?_, ?_, ?_⟩
      · constructor
        · intro habs
          simp at habs
        · rintro ⟨a1, ha1, hne⟩
          injection ha1 with ha1
          exact absurd (ha1 ▸ hpen) hne
      · rintro (habs | habs) <;> simp at habs
      · intro s st' hok d2 r2 t2
        rw [Prod.mk.injEq] at hok
        obtain ⟨hs, hst⟩ := hok
        have hrow_eq : findApprover st' eid uid
            = some (decideRow a d (rIn.getD "") now) := by
          rw [← hst]
          rw [findApprover_congr (saveApprover st (decideRow a d (rIn.getD "") now))
                (recomputeEvent (saveApprover st (decideRow a d (rIn.getD "") now)) eid)
                (recomputeEvent_approvers _ _) eid uid]
          exact findApprover_saveApprover_self st eid uid a hfa _
            (decideRow_eventId a d _ now) (decideRow_approverId a d _ now)
        rw [approveEventPost_found_eq st' eid uid t2 d2 r2 _ hrow_eq,
            if_pos (decideRow_status_ne_pending a d _ now)]

/-- C4 witness: on `s1`, after user 2's successful approval a second call by
user 2 answers AlreadyDecided and leaves the store untouched. -/
theorem C4_witness :
    approveEventPost (approveEventPost s1 0 2 (some "approve") none 7).2 0 2
        none none 8
      = (DecideResult.alreadyResponded,
         (approveEventPost s1 0 2 (some "approve") none 7).2) :=
  (C4_decide_errors s1 0 2 7 (some "approve") none).2.2.2
    ApproverStatus.approved (approveEventPost s1 0 2 (some "approve") none 7).2
    (by decide) none none 8

/-- C10: any decision value other than the exact string "approve" — "reject",
a missing field (`none`), or any other string — turns the pending approver row
REJECTED with the supplied reason (defaulting to the empty string), and the
recomputation then cancels the event. -/
theorem C10_nonapprove_rejects (st : Store) (eid uid now : Nat)
    (d rIn : Option String) (a : EventApprover)
    (hfa : findApprover st eid uid = some a)
    (hp : a.status = ApproverStatus.pending)
    (hd : d ≠ some "approve") :
    ∃ st', approveEventPost st eid uid d rIn now =
        (DecideResult.ok ApproverStatus.rejected, st') ∧
      findApprover st' eid uid = some { a with
        decision_time := some now, status := ApproverStatus.rejected,
        rejection_reason := rIn.getD "" } ∧
      (∀ ev, findEvent st eid = some ev →
        findEvent st' eid = some { ev with status := EventStatus.cancelled }) := by
  have hbneg : ¬((d == some "approve") = true) := by simp [hd]
  have hrow : decideRow a d (rIn.getD "") now = { a with
      decision_time := some now, status := ApproverStatus.rejected,
      rejection_reason := rIn.getD "" } := by
    unfold decideRow
    rw [if_neg hbneg]
  refine ⟨recomputeEvent (saveApprover st (decideRow a d (rIn.getD "") now)) eid,
    ?_, ?_, ?_⟩
  · rw [approveEventPost_found_eq st eid uid now d rIn a hfa,
        if_neg (by simp [hp]), hrow]
  · rw [findApprover_congr (saveApprover st (decideRow a d (rIn.getD "") now))
          (recomputeEvent (saveApprover st (decideRow a d (rIn.getD "") now)) eid)
          (recomputeEvent_approvers _ _) eid uid]
    rw [findApprover_saveApprover_self st eid uid a hfa _
          (decideRow_eventId a d _ now) (decideRow_approverId a d _ now), hrow]
  · intro ev hev
    have hfa2 : st.approvers.find? (approverMatches eid uid) = some a := hfa
    have hpa : approverMatches eid uid a = true := List.find?_some hfa2
    obtain ⟨hae, hau⟩ := approverMatches_elim eid uid a hpa
    have hamem : a ∈ st.approvers := List.mem_of_find?_eq_some hfa2
    have hrmem : decideRow a d (rIn.getD "") now ∈
        (saveApprover st (decideRow a d (rIn.getD "") now)).approvers :=
      row_mem_saveApprover st _ a hamem
        (by rw [decideRow_eventId, decideRow_approverId]; exact approverMatches_self a)
    have hsmem : ApproverStatus.rejected ∈
        approverStatuses (saveApprover st (decideRow a d (rIn.getD "") now)) eid := by
      have hst := status_mem_approverStatuses _ eid _ hrmem
        ((decideRow_eventId a d _ now).trans hae)
      rw [decideRow_status, if_neg hbneg] at hst
      exact hst
    have hany : (approverStatuses (saveApprover st (decideRow a d (rIn.getD "") now))
        eid).any (fun s => s == ApproverStatus.rejected) = true :=
      List.any_eq_true.mpr ⟨ApproverStatus.rejected, hsmem, by simp⟩
    have h1 : findEvent (saveApprover st (decideRow a d (rIn.getD "") now)) eid
        = some ev := by
      rw [findEvent_congr st (saveApprover st (decideRow a d (rIn.getD "") now))
            (saveApprover_events st _) eid]
      exact hev
    rw [findEvent_recomputeEvent _ eid ev h1]
    unfold specRecompute
    rw [if_pos hany]

/-- C10 witness: on `s1`, user 2 posting with a missing decision field and
reason "busy" rejects the row with reason "busy" and cancels event 0. -/
theorem C10_witness :
    ∃ st', approveEventPost s1 0 2 none (some "busy") 9 =
        (DecideResult.ok ApproverStatus.rejected, st') ∧
      findApprover st' 0 2 = some { ap0 with
        decision_time := some 9, status := ApproverStatus.rejected,
        rejection_reason := "busy" } ∧
      (∀ ev, findEvent s1 0 = some ev →
        findEvent st' 0 = some { ev with status := EventStatus.cancelled }) :=
  C10_nonapprove_rejects s1 0 2 9 none (some "busy") ap0
    (by decide) (by decide) (by decide)

/-- The store after `EventSerializer.create` has written the Event row and the
EventParticipant rows (serializers.py lines 82-88) — the state at which the
approver check runs. -/
def createPartialStore (st : Store) (userId : Nat) (inp : EventInput)
    (participant_ids : List Nat) : Store :=
  { st with
    events := st.events ++ [newEventOf st userId inp]
    participants := st.participants ++ (withCreator userId participant_ids).map
      (fun uid => { eventId := st.nextEventId, userId := uid })
    nextEventId := st.nextEventId + 1 }

/-- The store after `EventSerializer.create` has additionally written the
EventApprover rows (serializers.py lines 93-94). -/
def createFullStore (st : Store) (userId : Nat) (inp : EventInput)
    (participant_ids approver_ids : List Nat) : Store :=
  { createPartialStore st userId inp participant_ids with
    approvers := st.approvers ++ approver_ids.map (fun aid =>
      { eventId := st.nextEventId, approverId := aid,
        status := ApproverStatus.pending, decision_time := none,
        rejection_reason := "" }) }

theorem eventSerializerCreate_eq (st : Store) (userId : Nat) (inp : EventInput)
    (pids aids : List Nat) :
    eventSerializerCreate st userId inp pids aids =
      (if (withCreator userId pids).length > 1 then
        (if aids.isEmpty then
          (Except.error (CreateError.validationError
            "At least one approver must be specified."),
           createPartialStore st userId inp pids)
        else
          (Except.ok st.nextEventId, createFullStore st userId inp pids aids))
      else
        (Except.ok st.nextEventId, createPartialStore st userId inp pids)) := rfl

theorem eventDetailDelete_found_eq (st : Store) (eid : Nat) (ev : Event)
    (hev : findEvent st eid = some ev) :
    eventDetailDelete st eid =
      (if ev.status = EventStatus.confirmed then
        (DeleteResult.noContent, setEventStatus st eid EventStatus.cancelled)
      else
        (DeleteResult.noContent,
          { st with
            events := st.events.filter (fun e => !(e.id == eid))
            participants := st.participants.filter (fun p => !(p.eventId == eid))
            approvers := st.approvers.filter (fun a => !(a.eventId == eid))
            notifications := st.notifications.filter
              (fun n => !(n.eventId == some eid)) })) := by
  unfold eventDetailDelete
  rw [hev]

/-- Further concrete stores for witnesses and counterexamples. -/
def st0 : Store :=
  { events := [], participants := [], approvers := [], notifications := [],
    nextEventId := 0 }

def inp0 : EventInput :=
  { familyId := 0, title := "t", description := "", location := "",
    start_time := 0, end_time := 1, statusIn := none }

def inpBad : EventInput :=
  { familyId := 0, title := "t", description := "", location := "",
    start_time := 5, end_time := 3, statusIn := none }

/-- C2 counterexample: an event created by user 1 with participant set {1}
(the creator alone) and zero approver ids succeeds, but its persisted status
is PENDING — `EventSerializer.create` never sets CONFIRMED — contradicting the
claim that a zero-approver event is CONFIRMED immediately after creation. -/
theorem C2_counterexample :
    (eventSerializerCreate st0 1 inp0 [1] []).1 = Except.ok 0 ∧
    (findEvent (eventSerializerCreate st0 1 inp0 [1] []).2 0).map Event.status
      = some EventStatus.pending ∧
    EventStatus.pending ≠ EventStatus.confirmed := ⟨rfl, rfl, by decide⟩

/-- C2 amended: for every successful `EventSerializer.create` call that does
not supply an explicit status, the persisted event's status is the model
default PENDING — whether the approver-id set is empty or not; there is no
auto-confirmation for zero-approver events. -/
theorem C2_amended_status_pending (st : Store) (userId : Nat) (inp : EventInput)
    (pids aids : List Nat) (eid : Nat) (st' : Store)
    (hsi : inp.statusIn = none)
    (hok : eventSerializerCreate st userId inp pids aids = (Except.ok eid, st')) :
    eid = st.nextEventId ∧
    ∃ ev, st'.events = st.events ++ [ev] ∧ ev.status = EventStatus.pending := by
  rw [eventSerializerCreate_eq] at hok
  have hstat : (newEventOf st userId inp).status = EventStatus.pending := by
    simp [newEventOf, hsi]
  split at hok
  · split at hok
    · simp at hok
    · rw [Prod.mk.injEq] at hok
      obtain ⟨h1, h2⟩ := hok
      injection h1 with h1
      exact ⟨h1.symm, newEventOf st userId inp, by rw [← h2]; rfl, hstat⟩
  · rw [Prod.mk.injEq] at hok
    obtain ⟨h1, h2⟩ := hok
    injection h1 with h1
    exact ⟨h1.symm, newEventOf st userId inp, by rw [← h2]; rfl, hstat⟩

/-- C2 amended witness: the concrete solo-participant, zero-approver creation
of `C2_counterexample`, via the amended theorem. -/
theorem C2_amended_witness :
    0 = st0.nextEventId ∧
    ∃ ev, (eventSerializerCreate st0 1 inp0 [1] []).2.events
        = st0.events ++ [ev] ∧ ev.status = EventStatus.pending :=
  C2_amended_status_pending st0 1 inp0 [1] [] 0
    (eventSerializerCreate st0 1 inp0 [1] []).2 rfl rfl

/-- C3 counterexample: creating with participants {1 (creator), 2} and zero
approver ids fails with the validation error, yet the Event row and both
EventParticipant rows are left persisted — creation is not atomic with
respect to this failure. -/
theorem C3_counterexample :
    (eventSerializerCreate st0 1 inp0 [2] []).1 =
      Except.error (CreateError.validationError
        "At least one approver must be specified.") ∧
    (eventSerializerCreate st0 1 inp0 [2] []).2.events.length = 1 ∧
    (eventSerializerCreate st0 1 inp0 [2] []).2.participants.length = 2 ∧
    (eventSerializerCreate st0 1 inp0 [2] []).2 ≠ st0 := ⟨rfl, rfl, rfl, by decide⟩

/-- C3 amended: whenever `EventSerializer.create` fails (the validation error
for a multi-participant event with no approvers — its only failure), the new
Event row and all its EventParticipant rows are already persisted and remain
in the store; only the EventApprover rows were never written.  The raise
happens after the writes and nothing rolls them back. -/
theorem C3_amended_partial_write (st : Store) (userId : Nat) (inp : EventInput)
    (pids aids : List Nat) (err : CreateError) (st' : Store)
    (herr : eventSerializerCreate st userId inp pids aids = (Except.error err, st')) :
    st'.events = st.events ++ [newEventOf st userId inp] ∧
    st'.participants = st.participants ++ (withCreator userId pids).map
      (fun uid => { eventId := st.nextEventId, userId := uid }) ∧
    st'.approvers = st.approvers := by
  rw [eventSerializerCreate_eq] at herr
  split at herr
  · split at herr
    · rw [Prod.mk.injEq] at herr
      obtain ⟨h1, h2⟩ := herr
      rw [← h2]
      exact ⟨rfl, rfl, rfl⟩
    · simp at herr
  · simp at herr

/-- C3 amended witness: the failing creation of `C3_counterexample` leaves
exactly the event and participant writes behind. -/
theorem C3_amended_witness :
    (eventSerializerCreate st0 1 inp0 [2] []).2.events
        = st0.events ++ [newEventOf st0 1 inp0] ∧
    (eventSerializerCreate st0 1 inp0 [2] []).2.participants
        = st0.participants ++ (withCreator 1 [2]).map
            (fun uid => { eventId := st0.nextEventId, userId := uid }) ∧
    (eventSerializerCreate st0 1 inp0 [2] []).2.approvers = st0.approvers :=
  C3_amended_partial_write st0 1 inp0 [2] []
    (CreateError.validationError "At least one approver must be specified.")
    (eventSerializerCreate st0 1 inp0 [2] []).2 rfl

/-- C5: for duplicate-free participant-id input (so the list is the set the
claim speaks of), a creation whose participant list after adding the creator
has more than one member fails with the validation error when the approver-id
set is empty, and a creation whose participant list has exactly one member
succeeds with no approver ids. -/
theorem C5_multi_requires_approver (st : Store) (userId : Nat) (inp : EventInput)
    (pids aids : List Nat) (hnd : pids.Nodup) :
    ((withCreator userId pids).length > 1 → aids = [] →
      (eventSerializerCreate st userId inp pids aids).1 =
        Except.error (CreateError.validationError
          "At least one approver must be specified.")) ∧
    ((withCreator userId pids).length = 1 →
      (eventSerializerCreate st userId inp pids []).1 = Except.ok st.nextEventId) := by
  constructor
  · intro hlen hae
    rw [eventSerializerCreate_eq, if_pos hlen, hae]
    rfl
  · intro hlen
    rw [eventSerializerCreate_eq, if_neg (by omega)]

/-- C5 witness: with creator 1, participants {1, 2} and no approver ids fail;
participants {1} alone succeed. -/
theorem C5_witness :
    (withCreator 1 [2]).length > 1 ∧
    (eventSerializerCreate st0 1 inp0 [2] []).1 =
      Except.error (CreateError.validationError
        "At least one approver must be specified.") ∧
    (withCreator 1 []).length = 1 ∧
    (eventSerializerCreate st0 1 inp0 [] []).1 = Except.ok st0.nextEventId :=
  ⟨by decide,
   (C5_multi_requires_approver st0 1 inp0 [2] [] (by decide)).1 (by decide) rfl,
   by decide,
   (C5_multi_requires_approver st0 1 inp0 [] [] (by decide)).2 (by decide)⟩

/-- C6 counterexample: end instant 3 strictly before start instant 5, yet
creation succeeds and persists the event with those times — no end-before-start
validation exists anywhere in `EventSerializer`. -/
theorem C6_counterexample :
    (eventSerializerCreate st0 1 inpBad [] []).1 = Except.ok 0 ∧
    (findEvent (eventSerializerCreate st0 1 inpBad [] []).2 0).map
        (fun e => (e.start_time, e.end_time)) = some ((5 : Int), (3 : Int)) ∧
    (3 : Int) < 5 := ⟨rfl, rfl, by decide⟩

/-- C6 amended: `EventSerializer` performs no ordering check on the two time
instants: for every start and end — including end strictly before start — a
solo-participant creation succeeds and persists the event with exactly the
supplied times, so persisted events need not satisfy end_time ≥ start_time. -/
theorem C6_amended_no_time_check (st : Store) (userId famId : Nat)
    (t dsc loc : String) (a b : Int) :
    (eventSerializerCreate st userId
        { familyId := famId, title := t, description := dsc, location := loc,
          start_time := a, end_time := b, statusIn := none } [] []).1
      = Except.ok st.nextEventId ∧
    ∃ ev, (eventSerializerCreate st userId
        { familyId := famId, title := t, description := dsc, location := loc,
          start_time := a, end_time := b, statusIn := none } [] []).2.events
        = st.events ++ [ev] ∧ ev.start_time = a ∧ ev.end_time = b := by
  rw [eventSerializerCreate_eq]
  have hlen : ¬((withCreator userId ([] : List Nat)).length > 1) := by
    unfold withCreator
    simp
  rw [if_neg hlen]
  exact ⟨rfl, newEventOf st userId _, rfl, rfl, rfl⟩

/-- C7: `EventDetailView.delete` on a CONFIRMED event is a soft delete — the
row is retained with status CANCELLED and the participant/approver tables are
untouched; on a PENDING, CANCELLED or DELETED event the row is removed
together with every participant and approver row of the event. -/
theorem C7_delete_soft_or_hard (st : Store) (eid : Nat) (ev : Event)
    (hev : findEvent st eid = some ev) :
    (ev.status = EventStatus.confirmed →
      (eventDetailDelete st eid).2.participants = st.participants ∧
      (eventDetailDelete st eid).2.approvers = st.approvers ∧
      findEvent (eventDetailDelete st eid).2 eid =
        some { ev with status := EventStatus.cancelled }) ∧
    ((ev.status = EventStatus.pending ∨ ev.status = EventStatus.cancelled ∨
        ev.status = EventStatus.deleted) →
      findEvent (eventDetailDelete st eid).2 eid = none ∧
      (eventDetailDelete st eid).2.participants.filter
        (fun p => p.eventId == eid) = [] ∧
      (eventDetailDelete st eid).2.approvers.filter
        (fun a => a.eventId == eid) = []) := by
  rw [eventDetailDelete_found_eq st eid ev hev]
  constructor
  · intro hc
    rw [if_pos hc]
    exact ⟨rfl, rfl, findEvent_setEventStatus st eid EventStatus.cancelled ev hev⟩
  · intro hcd
    have hne : ¬(ev.status = EventStatus.confirmed) := by
      rcases hcd with h | h | h <;> simp [h]
    rw [if_neg hne]
    refine ⟨?_, ?_, ?_⟩
    · show (st.events.filter (fun e => !(e.id == eid))).find?
        (fun e => e.id == eid) = none
      exact find?_filter_not_none _ _
    · exact filter_not_filter_nil _ _
    · exact filter_not_filter_nil _ _

/-- A store whose only event is CONFIRMED, for the C7 witness. -/
def s4 : Store :=
  { events := [{ ev0 with status := EventStatus.confirmed }],
    participants := [⟨0, 1⟩], approvers := [], notifications := [],
    nextEventId := 1 }

/-- C7 witness: deleting the CONFIRMED event of `s4` soft-deletes it. -/
theorem C7_witness :
    (eventDetailDelete s4 0).2.participants = s4.participants ∧
    (eventDetailDelete s4 0).2.approvers = s4.approvers ∧
    findEvent (eventDetailDelete s4 0).2 0 =
      some { { ev0 with status := EventStatus.confirmed } with
             status := EventStatus.cancelled } :=
  (C7_delete_soft_or_hard s4 0 { ev0 with status := EventStatus.confirmed }
    (by decide)).1 rfl

/-- C8 counterexample: on `s1`, user 2's approval flips event 0 from PENDING
to CONFIRMED, yet zero APPROVAL_RESULT notifications exist afterwards — not
exactly one — because the decide path never writes a notification row. -/
theorem C8_counterexample :
    (findEvent s1 0).map Event.status = some EventStatus.pending ∧
    (findEvent (approveEventPost s1 0 2 (some "approve") none 7).2 0).map
      Event.status = some EventStatus.confirmed ∧
    ((approveEventPost s1 0 2 (some "approve") none 7).2.notifications.filter
      (fun n => n.type == NotificationType.approvalResult)).length = 0 := by
  decide

/-- C8 amended: `ApproveEventView.post` never writes any notification row:
after every decide call — whether it changes the event's status to CONFIRMED
or CANCELLED or not — the notifications table equals the one before, so in
particular no APPROVAL_RESULT notification is ever emitted to the creator. -/
theorem C8_amended_no_notify (st : Store) (eid uid now : Nat)
    (d rIn : Option String) :
    (approveEventPost st eid uid d rIn now).2.notifications = st.notifications := by
  cases hfa : findApprover st eid uid with
  | none => rw [approveEventPost_none_eq st eid uid now d rIn hfa]
  | some a =>
    rw [approveEventPost_found_eq st eid uid now d rIn a hfa]
    by_cases hp : a.status ≠ ApproverStatus.pending
    · rw [if_pos hp]
    · rw [if_neg hp]
      show (recomputeEvent
        (saveApprover st (decideRow a d (rIn.getD "") now)) eid).notifications
          = st.notifications
      rw [recomputeEvent_notifications]
      rfl

/-- A store whose only event is CANCELLED, for the C9 counterexample. -/
def s2 : Store :=
  { events := [{ ev0 with status := EventStatus.cancelled }],
    participants := [], approvers := [], notifications := [], nextEventId := 1 }

/-- C9 counterexample: `status` is a writable field of `EventSerializer`, so
an update request moves the CANCELLED event of `s2` back to CONFIRMED — the
claimed terminality fails for the update operation. -/
theorem C9_counterexample :
    (findEvent s2 0).map Event.status = some EventStatus.cancelled ∧
    (findEvent (eventSerializerUpdateStatus s2 0 EventStatus.confirmed) 0).map
      Event.status = some EventStatus.confirmed := by decide

/-- C9 amended: decide and delete preserve the terminal statuses — once an
event is CANCELLED with some approver row REJECTED (the only way the approval
recomputation produces CANCELLED), no decide call addressed to it ever moves
its status away from CANCELLED, and a delete on a CANCELLED or DELETED event
removes the row rather than reviving it; the claim as stated fails for the
update operation, whose writable `status` field can set any status (see the
counterexample). -/
theorem C9_amended_terminal (st : Store) (eid : Nat) (ev : Event)
    (hev : findEvent st eid = some ev) (hu : approversUnique st) :
    ((ev.status = EventStatus.cancelled ∧
      ∃ b ∈ st.approvers, b.eventId = eid ∧ b.status = ApproverStatus.rejected) →
      ∀ uid d rIn now ev',
        findEvent (approveEventPost st eid uid d rIn now).2 eid = some ev' →
        ev'.status = EventStatus.cancelled) ∧
    ((ev.status = EventStatus.cancelled ∨ ev.status = EventStatus.deleted) →
      findEvent (eventDetailDelete st eid).2 eid = none) := by
  constructor
  · rintro ⟨hc, b, hbmem, hbe, hbr⟩ uid d rIn now ev' hev'
    cases hfa : findApprover st eid uid with
    | none =>
      rw [approveEventPost_none_eq st eid uid now d rIn hfa] at hev'
      rw [hev] at hev'
      injection hev' with hev'
      rw [← hev', hc]
    | some a =>
      have hfa2 : st.approvers.find? (approverMatches eid uid) = some a := hfa
      have hpa : approverMatches eid uid a = true := List.find?_some hfa2
      obtain ⟨hae, hau⟩ := approverMatches_elim eid uid a hpa
      have hamem : a ∈ st.approvers := List.mem_of_find?_eq_some hfa2
      rw [approveEventPost_found_eq st eid uid now d rIn a hfa] at hev'
      by_cases hp : a.status ≠ ApproverStatus.pending
      · rw [if_pos hp] at hev'
        rw [hev] at hev'
        injection hev' with hev'
        rw [← hev', hc]
      · have hpen : a.status = ApproverStatus.pending := not_not.mp hp
        rw [if_neg hp] at hev'
        have hbne : b.approverId ≠ a.approverId := by
          intro heq
          have hba : b = a := hu b hbmem a hamem (hbe.trans hae.symm) heq
          rw [hba, hpen] at hbr
          exact absurd hbr (by simp)
        have hnm : approverMatches
            (decideRow a d (rIn.getD "") now).eventId
            (decideRow a d (rIn.getD "") now).approverId b = false := by
          unfold approverMatches
          rw [decideRow_approverId]
          simp [hbne]
        have hbmem2 : b ∈
            (saveApprover st (decideRow a d (rIn.getD "") now)).approvers :=
          mem_saveApprover_of_not_match st _ b hbmem hnm
        have hsr : ApproverStatus.rejected ∈ approverStatuses
            (saveApprover st (decideRow a d (rIn.getD "") now)) eid := by
          have hm := status_mem_approverStatuses _ eid b hbmem2 hbe
          rw [hbr] at hm
          exact hm
        have hany : (approverStatuses
            (saveApprover st (decideRow a d (rIn.getD "") now)) eid).any
              (fun s => s == ApproverStatus.rejected) = true :=
          List.any_eq_true.mpr ⟨ApproverStatus.rejected, hsr, by simp⟩
        have h1 : findEvent
            (saveApprover st (decideRow a d (rIn.getD "") now)) eid = some ev := by
          rw [findEvent_congr st _ (saveApprover_events st _) eid]
          exact hev
        rw [findEvent_recomputeEvent _ eid ev h1] at hev'
        injection hev' with hev'
        rw [← hev']
        show specRecompute _ ev.status = EventStatus.cancelled
        unfold specRecompute
        rw [if_pos hany]
  · intro hcd
    have hne : ¬(ev.status = EventStatus.confirmed) := by
      rcases hcd with h | h <;> simp [h]
    rw [eventDetailDelete_found_eq st eid ev hev, if_neg hne]
    show (st.events.filter (fun e => !(e.id == eid))).find?
      (fun e => e.id == eid) = none
    exact find?_filter_not_none _ _

/-- A store whose only event is CANCELLED with one REJECTED and one PENDING
approver row, for the C9 witness. -/
def s3 : Store :=
  { events := [{ ev0 with status := EventStatus.cancelled }],
    participants := [⟨0, 1⟩],
    approvers := [{ eventId := 0, approverId := 2,
                    status := ApproverStatus.rejected, decision_time := some 3,
                    rejection_reason := "no" },
                  { eventId := 0, approverId := 3,
                    status := ApproverStatus.pending, decision_time := none,
                    rejection_reason := "" }],
    notifications := [], nextEventId := 1 }

theorem approversUnique_s3 : approversUnique s3 := by
  intro a1 h1 a2 h2 he hap
  fin_cases h1 <;> fin_cases h2 <;> simp_all [s3]

/-- C9 witness: on `s3`, a late approval by the still-pending approver 3
leaves the event CANCELLED, and a delete removes the CANCELLED row. -/
theorem C9_witness :
    findEvent (approveEventPost s3 0 3 (some "approve") none 5).2 0 =
      some { ev0 with status := EventStatus.cancelled } ∧
    ({ ev0 with status := EventStatus.cancelled } : Event).status
      = EventStatus.cancelled ∧
    findEvent (eventDetailDelete s3 0).2 0 = none := by
  have h := C9_amended_terminal s3 0 { ev0 with status := EventStatus.cancelled }
    (by decide) approversUnique_s3
  refine ⟨by decide, ?_, h.2 (Or.inl rfl)⟩
  exact h.1
    ⟨rfl, ⟨0, 2, ApproverStatus.rejected, some 3, "no"⟩, by decide, rfl, rfl⟩
    3 (some "approve") none 5 { ev0 with status := EventStatus.cancelled }
    (by decide)

end AgreeTime
